import Mathlib

/-!
Verification of the openapi-openai-go library (package apiai).

The development shallowly embeds the Go source: `apiai.go` (data model,
reference resolver, OpenAPI-to-function converter, spec loader),
`fhandler.go` (request executor; the repository also carries a fuller
variant of `executeAPIRequest` that additionally encodes query
parameters, and that fuller variant is the one embedded here) and
`client.go` (authenticated transport).  Go standard-library functions
used by that code (`strings`, `fmt`, `path`, `net/url`) are modelled
from their documented semantics for ASCII inputs; each model names the
Go function it follows.  Go maps are modelled as association lists,
nil-able Go pointers and maps as `Option`, and Go panics / returned
errors as `Except`.
-/

namespace Apiai

/-! ## Go `strings` and character primitives (ASCII fragment) -/

/-- Left brace character, written by code point. -/
def lbrace : Char := Char.ofNat 123

/-- Right brace character, written by code point. -/
def rbrace : Char := Char.ofNat 125

/-- ASCII lower-casing of one character, the ASCII fragment of the rule
`strings.ToLower` applies to each rune. -/
def toLowerChar (c : Char) : Char :=
  if 'A' ≤ c ∧ c ≤ 'Z' then Char.ofNat (c.toNat + 32) else c

/-- Model of Go `strings.ToLower` on ASCII strings. -/
def goToLower (s : String) : String :=
  String.mk (s.data.map toLowerChar)

/-- Whether the first list starts with the second one. -/
def listStartsWith : List Char → List Char → Bool
  | _, [] => true
  | [], _ :: _ => false
  | c :: cs, p :: ps => c = p && listStartsWith cs ps

/-- Model of Go `strings.ReplaceAll` on character lists: a single
left-to-right pass replacing non-overlapping occurrences of `pat` by
`rep`.  The scan consumes at least one character per step, so the input
length bounds the number of steps; the structural `fuel` argument makes
that bound explicit.  The Go empty-pattern corner case is never
exercised by the embedded code, whose patterns are all non-empty
literals. -/
def goReplaceAllFuel (pat rep : List Char) : Nat → List Char → List Char
  | _, [] => []
  | 0, l => l
  | fuel + 1, c :: cs =>
    if listStartsWith (c :: cs) pat then
      rep ++ goReplaceAllFuel pat rep fuel (cs.drop (pat.length - 1))
    else
      c :: goReplaceAllFuel pat rep fuel cs

/-- Model of Go `strings.ReplaceAll` on character lists, the fuel set to
the input length. -/
def goReplaceAllCore (pat rep s : List Char) : List Char :=
  goReplaceAllFuel pat rep s.length s

/-- Model of Go `strings.ReplaceAll` on strings. -/
def goReplaceAllS (s pat rep : String) : String :=
  String.mk (goReplaceAllCore pat.data rep.data s.data)

/-- Model of Go `strings.Split` with a one-character separator:
substrings between consecutive separators; the empty string yields one
empty field. -/
def goSplitChar (sep : Char) : List Char → List (List Char)
  | [] => [[]]
  | c :: rest =>
    match goSplitChar sep rest with
    | [] => [[]]
    | g :: gs => if c = sep then [] :: g :: gs else (c :: g) :: gs

/-- Model of Go `strings.Split(s, "/")` at the character level. -/
def goSplitSlash : List Char → List (List Char) :=
  goSplitChar '/'

/-- Model of Go `strings.Cut` with a one-character separator: the text
before and after the first occurrence, or `none` when the separator is
absent. -/
def listCut (sep : Char) : List Char → Option (List Char × List Char)
  | [] => Option.none
  | c :: r =>
    if c = sep then Option.some ([], r)
    else (listCut sep r).map (fun p => (c :: p.1, p.2))

/-- Model of Go `strings.Split(s, "/")` on strings. -/
def goSplitSlashS (s : String) : List String :=
  (goSplitSlash s.data).map String.mk

/-! ## OpenAPI data model (apiai.go lines 31 to 127)

The recursive `Schema` struct (whose `Properties` field is a nil-able Go
map from property name to nil-able `*Schema`) is embedded as a mutual
inductive family so that the conversion functions below are structural:
`PropsOpt` stands for the nil-able map, `PropList` for its entries and
`SchemaOpt` for a nil-able `*Schema` pointer. -/

mutual
/-- Embedding of `type Schema struct` (apiai.go lines 120 to 127). -/
inductive SchemaN : Type where
  | mk (type : String) (properties : PropsOpt) (required : List String)
       (format : String) (description : String)

/-- A nil-able Go map `map[string]*Schema`. -/
inductive PropsOpt : Type where
  | none
  | some (ps : PropList)

/-- Entries of a `map[string]*Schema`, in insertion-enumeration order. -/
inductive PropList : Type where
  | nil
  | cons (name : String) (schema : SchemaOpt) (tail : PropList)

/-- A nil-able `*Schema` pointer. -/
inductive SchemaOpt : Type where
  | none
  | some (s : SchemaN)
end

/-- The `Type` field of a schema node. -/
def SchemaN.type : SchemaN → String
  | .mk t _ _ _ _ => t

/-- The `Properties` field of a schema node. -/
def SchemaN.properties : SchemaN → PropsOpt
  | .mk _ p _ _ _ => p

/-- The `Required` field of a schema node. -/
def SchemaN.required : SchemaN → List String
  | .mk _ _ r _ _ => r

/-- The `Format` field of a schema node. -/
def SchemaN.format : SchemaN → String
  | .mk _ _ _ f _ => f

/-- The `Description` field of a schema node. -/
def SchemaN.description : SchemaN → String
  | .mk _ _ _ _ d => d

/-- Functional update of the `Description` field, embedding the Go
assignment `prop.Description = ...`. -/
def SchemaN.withDescription : SchemaN → String → SchemaN
  | .mk t p r f _, d => .mk t p r f d

/-- Go map assignment `props[name] = v`: replace the entry if the key is
present, otherwise add it. -/
def propSet : PropList → String → SchemaOpt → PropList
  | .nil, k, v => .cons k v .nil
  | .cons n s t, k, v =>
    if n = k then .cons n v t else .cons n s (propSet t k v)

/-- Go map read `props[name]` distinguishing absence. -/
def propGet : PropList → String → Option SchemaOpt
  | .nil, _ => Option.none
  | .cons n s t, k => if n = k then Option.some s else propGet t k

/-- Embedding of `type Parameter struct` (apiai.go lines 100 to 108). -/
structure Parameter where
  name : String
  in_ : String
  description : String
  required : Bool
  schema : SchemaOpt
  ref : String

/-- Embedding of `type MediaType struct` (apiai.go lines 115 to 118). -/
structure MediaType where
  schema : SchemaOpt

/-- Embedding of `type RequestBody struct` (apiai.go lines 110 to 113);
the Go map from media type to `MediaType` becomes an association list in
iteration order. -/
structure RequestBody where
  content : List (String × MediaType)

/-- Embedding of `type Operation struct` (apiai.go lines 92 to 98). -/
structure Operation where
  summary : String
  description : String
  parameters : List Parameter
  requestBody : Option RequestBody

/-- Embedding of `type PathItem struct` (apiai.go lines 62 to 69). -/
structure PathItem where
  get : Option Operation
  post : Option Operation
  put : Option Operation
  delete : Option Operation
  patch : Option Operation

/-- Embedding of `type Components struct` (apiai.go lines 57 to 60);
the nil-able Go map of reusable parameters becomes an optional
association list. -/
structure Components where
  parameters : Option (List (String × Parameter))

/-- Embedding of `type Info struct` (apiai.go lines 50 to 55). -/
structure Info where
  title : String
  description : String
  version : String

/-- Embedding of `type OpenAPISpec struct` (apiai.go lines 42 to 48). -/
structure OpenAPISpec where
  openapi : String
  paths : List (String × PathItem)
  info : Info
  components : Option Components

/-- Embedding of `type FunctionDefinition struct` (apiai.go lines 31 to
40). -/
structure FunctionDefinition where
  name : String
  description : String
  parameters : SchemaN
  oapiMethod : String
  oapiPath : String
  pathParams : List String
  queryParams : List String

/-- Lookup in a Go `map[string]Parameter` modelled as an association
list. -/
def lookupParam : List (String × Parameter) → String → Option Parameter
  | [], _ => Option.none
  | (k, v) :: t, n => if k = n then Option.some v else lookupParam t n

/-- Embedding of `getOperations` (apiai.go lines 72 to 90).  The Go
function builds a `map[string]*Operation`; the converter then iterates
that map in unspecified order, which this embedding fixes to the
insertion enumeration GET, POST, PUT, DELETE, PATCH.  Every claim below
exercises at most one operation per path, so the chosen order is
immaterial to them. -/
def getOperations (p : PathItem) : List (String × Operation) :=
  (match p.get with | Option.some op => [("GET", op)] | Option.none => []) ++
  (match p.post with | Option.some op => [("POST", op)] | Option.none => []) ++
  (match p.put with | Option.some op => [("PUT", op)] | Option.none => []) ++
  (match p.delete with | Option.some op => [("DELETE", op)] | Option.none => []) ++
  (match p.patch with | Option.some op => [("PATCH", op)] | Option.none => [])

/-- Embedding of `resolveParameterRef` (apiai.go lines 129 to 144).  The
Go guard is the short-circuit conjunction `param.Ref != "" &&
spec.Components != nil && spec.Components.Parameters != nil`, then a
split of the reference on `/`, a 4-segment shape check with fixed first
three segments, and a component-table lookup; every failing test falls
through to returning the original parameter. -/
def resolveParameterRef (param : Parameter) (spec : OpenAPISpec) : Parameter :=
  if param.ref = "" then param
  else
    match spec.components with
    | Option.none => param
    | Option.some comps =>
      match comps.parameters with
      | Option.none => param
      | Option.some tbl =>
        match goSplitSlashS param.ref with
        | [a, b, c, k] =>
          if a = "#" ∧ b = "components" ∧ c = "parameters" then
            match lookupParam tbl k with
            | Option.some referencedParam => referencedParam
            | Option.none => param
          else param
        | _ => param

/-- Embedding of `sanitizeFunctionName` (apiai.go lines 221 to 227). -/
def sanitizeFunctionName (path method : String) : String :=
  let name := goReplaceAllS path "/" "_"
  let name := goReplaceAllS name "\x7b" ""
  let name := goReplaceAllS name "\x7d" ""
  goToLower (method ++ name)

mutual
/-- Embedding of `convertSchemaToProperty` (apiai.go lines 230 to 253):
a nil schema pointer becomes a bare string-typed node; otherwise type
and description are copied, format is dropped, and when the source
properties map is non-nil its entries are converted recursively and the
required list is copied exactly when non-empty. -/
def convertSchemaToProperty : SchemaOpt → SchemaN
  | .none => .mk "string" .none [] "" ""
  | .some (.mk ty props req _ descr) =>
    match props with
    | .none => .mk ty .none [] "" descr
    | .some ps =>
      .mk ty (.some (convertPropsList ps))
        (if 0 < req.length then req else []) "" descr

/-- The recursive conversion of each entry of a properties map performed
by the loop inside `convertSchemaToProperty` (apiai.go lines 241 to
245). -/
def convertPropsList : PropList → PropList
  | .nil => .nil
  | .cons n sub t => .cons n (.some (convertSchemaToProperty sub)) (convertPropsList t)
end

/-- Composition of an operation description from summary and
description (apiai.go lines 156 to 159). -/
def descCompose (summary description : String) : String :=
  if 0 < description.length then summary ++ "\n" ++ description else summary

/-- Accumulator of the per-operation parameter loop in
`ConvertOpenAPIToFunctions`: the parameter schema being built plus the
path- and query-name lists. -/
structure ParamAcc where
  properties : PropList
  required : List String
  pathParams : List String
  queryParams : List String

/-- Embedding of one iteration of the parameter loop of
`ConvertOpenAPIToFunctions` (apiai.go lines 178 to 197): resolve the
reference, keep only path and query parameters, convert the schema,
overwrite its description with the parameter description, record the
property, the required flag and the location. -/
def processParam (spec : OpenAPISpec) (acc : ParamAcc) (param : Parameter) : ParamAcc :=
  let resolvedParam := resolveParameterRef param spec
  if resolvedParam.in_ = "path" ∨ resolvedParam.in_ = "query" then
    let prop := (convertSchemaToProperty resolvedParam.schema).withDescription
      resolvedParam.description
    { properties := propSet acc.properties resolvedParam.name (.some prop)
      required :=
        if resolvedParam.required then acc.required ++ [resolvedParam.name]
        else acc.required
      pathParams :=
        if resolvedParam.in_ = "path" then acc.pathParams ++ [resolvedParam.name]
        else acc.pathParams
      queryParams :=
        if resolvedParam.in_ = "path" then acc.queryParams
        else acc.queryParams ++ [resolvedParam.name] }
  else acc

/-- Embedding of the request-body loop of `ConvertOpenAPIToFunctions`
(apiai.go lines 200 to 207): each media type with a non-nil schema
overwrites the synthetic `requestBody` property. -/
def processRequestBody (props : PropList) : Option RequestBody → PropList
  | Option.none => props
  | Option.some rb =>
    rb.content.foldl
      (fun ps mt =>
        match mt.2.schema with
        | .none => ps
        | .some s => propSet ps "requestBody" (.some (convertSchemaToProperty (.some s))))
      props

/-- Embedding of the per-operation body of `ConvertOpenAPIToFunctions`
(apiai.go lines 156 to 213), producing the function definition for one
path and method. -/
def buildFunctionDefinition (spec : OpenAPISpec) (path method : String)
    (op : Operation) : FunctionDefinition :=
  let acc := op.parameters.foldl (processParam spec)
    { properties := .nil, required := [], pathParams := [], queryParams := [] }
  let props := processRequestBody acc.properties op.requestBody
  { name := sanitizeFunctionName path method
    description := descCompose op.summary op.description
    parameters := .mk "object" (.some props) acc.required "" ""
    oapiMethod := method
    oapiPath := path
    pathParams := acc.pathParams
    queryParams := acc.queryParams }

/-- Go map assignment `functions[name] = fd` on the result map. -/
def funcsSet : List (String × FunctionDefinition) → String → FunctionDefinition →
    List (String × FunctionDefinition)
  | [], k, v => [(k, v)]
  | (n, f) :: t, k, v =>
    if n = k then (n, v) :: t else (n, f) :: funcsSet t k v

/-- Embedding of `ConvertOpenAPIToFunctions` (apiai.go lines 147 to
218): one function definition per path and declared method, stored
under its generated name, later writes overwriting earlier ones.  The
Go loops iterate two maps in unspecified order; the embedding iterates
the association lists in list order (see `getOperations`). -/
def ConvertOpenAPIToFunctions (spec : OpenAPISpec) : List (String × FunctionDefinition) :=
  spec.paths.foldl
    (fun functions pp =>
      (getOperations pp.2).foldl
        (fun functions mo =>
          let funcDef := buildFunctionDefinition spec pp.1 mo.1 mo.2
          funcsSet functions funcDef.name funcDef)
        functions)
    []

/-! ## Model of Go `net/url` and `path` (ASCII fragment)

The request executor manipulates its URL as a string, through
`url.URL.JoinPath`, `url.URL.String`, `url.Parse`, `url.Values` and the
escape helpers.  The model below follows the Go sources of those
functions on ASCII input, restricted to the URL shape the executor
produces (scheme, host, path, query; no user info, opaque part or
fragment). -/

/-- Apostrophe character, written by code point. -/
def squote : Char := Char.ofNat 39

/-- Go `shouldEscape(c, encodePath)`: alphanumerics, the RFC 3986 marks
and all reserved characters except the question mark travel unescaped
inside a path. -/
def shouldEscapePath (c : Char) : Bool :=
  if ('a' ≤ c ∧ c ≤ 'z') ∨ ('A' ≤ c ∧ c ≤ 'Z') ∨ ('0' ≤ c ∧ c ≤ '9') then false
  else if c = '-' ∨ c = '_' ∨ c = '.' ∨ c = '~' then false
  else if c = '$' ∨ c = '&' ∨ c = '+' ∨ c = ',' ∨ c = '/' ∨ c = ':' ∨ c = ';'
       ∨ c = '=' ∨ c = '?' ∨ c = '@' then c = '?'
  else true

/-- Go `shouldEscape(c, encodePathSegment)`: as `encodePath` but the
segment separators themselves must also be escaped. -/
def shouldEscapePathSegment (c : Char) : Bool :=
  if ('a' ≤ c ∧ c ≤ 'z') ∨ ('A' ≤ c ∧ c ≤ 'Z') ∨ ('0' ≤ c ∧ c ≤ '9') then false
  else if c = '-' ∨ c = '_' ∨ c = '.' ∨ c = '~' then false
  else if c = '$' ∨ c = '&' ∨ c = '+' ∨ c = ',' ∨ c = '/' ∨ c = ':' ∨ c = ';'
       ∨ c = '=' ∨ c = '?' ∨ c = '@' then
    c = '/' ∨ c = ';' ∨ c = ',' ∨ c = '?'
  else true

/-- Go `shouldEscape(c, encodeQueryComponent)`: every reserved
character is escaped in a query component. -/
def shouldEscapeQuery (c : Char) : Bool :=
  if ('a' ≤ c ∧ c ≤ 'z') ∨ ('A' ≤ c ∧ c ≤ 'Z') ∨ ('0' ≤ c ∧ c ≤ '9') then false
  else if c = '-' ∨ c = '_' ∨ c = '.' ∨ c = '~' then false
  else true

/-- Upper-case hexadecimal digit, as used by Go `net/url` escaping. -/
def hexDigitUpper (n : Nat) : Char :=
  if n < 10 then Char.ofNat (48 + n) else Char.ofNat (55 + n)

/-- Percent-encoding of one ASCII character. -/
def percentChar (c : Char) : List Char :=
  ['%', hexDigitUpper (c.toNat / 16), hexDigitUpper (c.toNat % 16)]

/-- Go `escape(s, mode)` for a mode given by its predicate; in query
mode a space becomes a plus sign instead of a percent triple. -/
def goEscapeCore (shouldEsc : Char → Bool) (plusForSpace : Bool) (s : List Char) : List Char :=
  s.flatMap (fun c =>
    if shouldEsc c then
      if plusForSpace ∧ c = ' ' then ['+'] else percentChar c
    else [c])

/-- Go `escape(s, encodePath)` on strings. -/
def escapePathStr (s : String) : String :=
  String.mk (goEscapeCore shouldEscapePath false s.data)

/-- Model of Go `url.PathEscape` (mode `encodePathSegment`). -/
def pathEscape (s : String) : String :=
  String.mk (goEscapeCore shouldEscapePathSegment false s.data)

/-- Model of Go `url.QueryEscape` (mode `encodeQueryComponent`). -/
def queryEscape (s : String) : String :=
  String.mk (goEscapeCore shouldEscapeQuery true s.data)

/-- Numeric value of a hexadecimal digit character. -/
def hexVal (c : Char) : Option Nat :=
  if '0' ≤ c ∧ c ≤ '9' then Option.some (c.toNat - 48)
  else if 'a' ≤ c ∧ c ≤ 'f' then Option.some (c.toNat - 87)
  else if 'A' ≤ c ∧ c ≤ 'F' then Option.some (c.toNat - 55)
  else Option.none

/-- Go `unescape(s, mode)`: percent triples are decoded, a malformed
percent sequence is an error, and in query mode a plus sign decodes to
a space. -/
def goUnescapeCore (plusToSpace : Bool) : List Char → Option (List Char)
  | [] => Option.some []
  | '%' :: a :: b :: rest =>
    match hexVal a, hexVal b with
    | Option.some x, Option.some y =>
      (goUnescapeCore plusToSpace rest).map (fun r => Char.ofNat (16 * x + y) :: r)
    | _, _ => Option.none
  | '%' :: _ :: [] => Option.none
  | '%' :: [] => Option.none
  | c :: rest =>
    (goUnescapeCore plusToSpace rest).map
      (fun r => (if plusToSpace ∧ c = '+' then ' ' else c) :: r)

/-- Go `validEncoded(s, encodePath)`, the test `EscapedPath` applies to
`RawPath`: a fixed list of allowed punctuation, the percent sign, and
anything `shouldEscape` would leave alone. -/
def validEncodedPath (s : String) : Bool :=
  s.data.all (fun c =>
    if c = '!' ∨ c = '$' ∨ c = '&' ∨ c = squote ∨ c = '(' ∨ c = ')' ∨ c = '*'
     ∨ c = '+' ∨ c = ',' ∨ c = ';' ∨ c = '=' ∨ c = ':' ∨ c = '@'
     ∨ c = '[' ∨ c = ']' ∨ c = '%' then true
    else ¬ shouldEscapePath c)

/-- The fields of Go `url.URL` that the executor's URL shape uses. -/
structure GoURL where
  scheme : String
  host : String
  path : String
  rawPath : String
  rawQuery : String
deriving DecidableEq

/-- Go `URL.setPath`, returning `none` where Go returns an error. -/
def GoURL.setPathE (u : GoURL) (p : String) : Option GoURL :=
  match goUnescapeCore false p.data with
  | Option.none => Option.none
  | Option.some chars =>
    let pathS := String.mk chars
    if escapePathStr pathS = p then
      Option.some { u with path := pathS, rawPath := "" }
    else
      Option.some { u with path := pathS, rawPath := p }

/-- Go `URL.setPath` as used by `JoinPath`, which discards the error
and in that case leaves the URL unchanged. -/
def GoURL.setPath (u : GoURL) (p : String) : GoURL :=
  (u.setPathE p).getD u

/-- Go `URL.EscapedPath`: `RawPath` when it is a valid encoding of
`Path`, otherwise the canonical escaping of `Path`. -/
def GoURL.escapedPath (u : GoURL) : String :=
  if u.rawPath ≠ "" ∧ validEncodedPath u.rawPath then
    match goUnescapeCore false u.rawPath.data with
    | Option.some chars =>
      if String.mk chars = u.path then u.rawPath else escapePathStr u.path
    | Option.none => escapePathStr u.path
  else if u.path = "*" then "*"
  else escapePathStr u.path

/-- Go `URL.String` restricted to the modelled fields: scheme, host,
escaped path (with a separating slash restored when needed) and raw
query.  ASCII host names need no host escaping. -/
def GoURL.toString (u : GoURL) : String :=
  let buf := if u.scheme ≠ "" then u.scheme ++ ":" else ""
  let buf :=
    if u.scheme ≠ "" ∨ u.host ≠ "" then
      (if u.host ≠ "" ∨ u.path ≠ "" then buf ++ "//" else buf) ++ u.host
    else buf
  let p := u.escapedPath
  let buf :=
    if p ≠ "" ∧ p.data.head? ≠ Option.some '/' ∧ u.host ≠ "" then buf ++ "/"
    else buf
  let buf := buf ++ p
  if u.rawQuery ≠ "" then buf ++ "?" ++ u.rawQuery else buf

/-- One step of Go `path.Clean` over the slash-separated segments: empty
and dot segments vanish, a dot-dot pops where it can (always consumed at
the root, kept only in unrooted paths with nothing left to pop). -/
def cleanSegStep (rooted : Bool) (acc : List (List Char)) (seg : List Char) : List (List Char) :=
  if seg = [] ∨ seg = ['.'] then acc
  else if seg = ['.', '.'] then
    if acc ≠ [] ∧ acc.getLast? ≠ Option.some ['.', '.'] then acc.dropLast
    else if rooted then acc
    else acc ++ [seg]
  else acc ++ [seg]

/-- Model of Go `path.Clean` on ASCII strings. -/
def goPathClean (p : String) : String :=
  if p = "" then "."
  else
    let rooted := p.data.head? = Option.some '/'
    let segs := (goSplitSlash p.data).foldl (cleanSegStep rooted) []
    let core := String.intercalate "/" (segs.map String.mk)
    let res := (if rooted then "/" else "") ++ core
    if res = "" then "." else res

/-- Model of Go `path.Join`: skip leading empty elements, join with
slashes and clean; all-empty input gives the empty string. -/
def goPathJoin (elems : List String) : String :=
  if elems.all (fun e => e = "") then ""
  else
    goPathClean (elems.foldl
      (fun buf e =>
        if 0 < buf.length ∨ e ≠ "" then
          (if 0 < buf.length then buf ++ "/" else buf) ++ e
        else buf)
      "")

/-- Model of Go `url.URL.JoinPath` with a single path element, the only
form the executor uses: join the escaped base path with the element,
restore a trailing slash that `path.Join` dropped, and store the result
through `setPath` (whose error, impossible here, Go discards). -/
def GoURL.joinPath1 (u : GoURL) (elem : String) : GoURL :=
  let e0 := u.escapedPath
  let p :=
    if ¬ e0.data.head? = Option.some '/' then
      String.mk ((goPathJoin ["/" ++ e0, elem]).data.drop 1)
    else goPathJoin [e0, elem]
  let p :=
    if elem.data.getLast? = Option.some '/' ∧ ¬ p.data.getLast? = Option.some '/' then
      p ++ "/"
    else p
  u.setPath p

/-- Model of Go `url.Parse` restricted to the URL shape the executor
builds: `scheme://host[/path][?query]`, no user info, opaque part or
fragment.  The scheme is lower-cased, the query is split off at the
first question mark, the host runs to the first slash after the double
slash, and the remainder goes through `setPath`, whose error fails the
parse as in Go. -/
def goURLParse (rawURL : String) : Option GoURL :=
  match listCut ':' rawURL.data with
  | Option.none => Option.none
  | Option.some (schemeChars, rest) =>
    let scheme := goToLower (String.mk schemeChars)
    let (beforeQ, rawQuery) :=
      match listCut '?' rest with
      | Option.some (b, q) => (b, String.mk q)
      | Option.none => (rest, "")
    match beforeQ with
    | '/' :: '/' :: auth =>
      let (hostChars, pathChars) :=
        match listCut '/' auth with
        | Option.some (h, p) => (h, '/' :: p)
        | Option.none => (auth, ([] : List Char))
      GoURL.setPathE ⟨scheme, String.mk hostChars, "", "", rawQuery⟩ (String.mk pathChars)
    | _ => Option.none

/-! ## Model of Go `url.Values` -/

/-- Go `url.Values`: a map from key to value list, modelled as an
association list (`Encode` sorts the keys, so the list order is
unobservable there). -/
abbrev Values := List (String × List String)

/-- Go `Values.Add`-style accumulation used by `ParseQuery`:
`m[key] = append(m[key], value)`. -/
def valuesAdd : Values → String → String → Values
  | [], k, v => [(k, [v])]
  | (n, vs) :: t, k, v =>
    if n = k then (n, vs ++ [v]) :: t else (n, vs) :: valuesAdd t k v

/-- Go `Values.Set`: `m[key] = []string(value)`. -/
def valuesSet : Values → String → String → Values
  | [], k, v => [(k, [v])]
  | (n, vs) :: t, k, v =>
    if n = k then (n, [v]) :: t else (n, vs) :: valuesSet t k v

/-- Model of Go `url.ParseQuery` as used by `URL.Query`, which discards
the error: pieces between ampersands; empty pieces and pieces holding a
semicolon are skipped, each remaining piece is cut at the first equals
sign and both halves are query-unescaped, a pair whose unescaping fails
being skipped. -/
def parseQueryValues (query : String) : Values :=
  (goSplitChar '&' query.data).foldl
    (fun m piece =>
      if piece = [] ∨ piece.contains ';' then m
      else
        let kv :=
          match listCut '=' piece with
          | Option.some (k, v) => (k, v)
          | Option.none => (piece, ([] : List Char))
        match goUnescapeCore true kv.1, goUnescapeCore true kv.2 with
        | Option.some k, Option.some v => valuesAdd m (String.mk k) (String.mk v)
        | _, _ => m)
    []

/-- Bytewise (ASCII) string order, as Go `sort.Strings` uses. -/
def leChars : List Char → List Char → Bool
  | [], _ => true
  | _ :: _, [] => false
  | a :: as, b :: bs =>
    if a = b then leChars as bs else decide (a.toNat < b.toNat)

/-- Insertion into a key-sorted value list. -/
def insertSortedValues (p : String × List String) : Values → Values
  | [] => [p]
  | q :: t =>
    if leChars p.1.data q.1.data then p :: q :: t else q :: insertSortedValues p t

/-- Model of Go `Values.Encode`: keys sorted bytewise, every key/value
pair query-escaped and joined with ampersands. -/
def valuesEncode (vs : Values) : String :=
  let sorted := vs.foldr insertSortedValues []
  String.intercalate "&"
    (sorted.flatMap (fun p => p.2.map (fun v => queryEscape p.1 ++ "=" ++ queryEscape v)))

/-! ## Dynamic values, `fmt.Sprint` and `json.Marshal`

The executor receives the model's tool-call arguments as a
`map[string]any` of JSON-decoded values.  The claims below exercise only
strings and the nil interface, embedded as the `Value` type; `fmt.Sprint`
and `json.Marshal` are modelled on that fragment. -/

/-- JSON-decoded dynamic values (the fragment of Go `any` the claims
exercise). -/
inductive Value : Type where
  | null
  | bool (b : Bool)
  | int (n : Int)
  | str (s : String)
deriving DecidableEq

/-- Model of Go `fmt.Sprint` on one dynamic value: the nil interface
prints as the angle-bracketed nil marker, booleans and integers in their
usual form, strings verbatim. -/
def fmtSprint : Value → String
  | .null => "<nil>"
  | .bool b => if b then "true" else "false"
  | .int n => toString n
  | .str s => s

/-- The executor's argument map `map[string]any`. -/
abbrev Args := List (String × Value)

/-- Go map read `args[k]` on the argument map: a missing key yields the
zero value of `any`, the nil interface. -/
def argsGet : Args → String → Value
  | [], _ => Value.null
  | (n, v) :: t, k => if n = k then v else argsGet t k

/-- Whether the key is present in the argument map. -/
def argsHas : Args → String → Bool
  | [], _ => false
  | (n, _) :: t, k => n = k ∨ argsHas t k

/-- JSON string escaping of one character (quote and backslash; the
claims marshal no control characters). -/
def jsonEscapeChar (c : Char) : List Char :=
  if c = '"' ∨ c = '\\' then ['\\', c] else [c]

/-- Model of Go `json.Marshal` on the `Value` fragment.  `Marshal` fails
only on values outside the JSON lattice, which `Value` excludes, so the
model is total. -/
def jsonMarshalValue : Value → String
  | .null => "null"
  | .bool b => if b then "true" else "false"
  | .int n => toString n
  | .str s => "\"" ++ String.mk (s.data.flatMap jsonEscapeChar) ++ "\""

/-! ## Request executor

Embedding of `executeAPIRequest` and `ExecuteFunction`.  The repository
carries two copies of `executeAPIRequest`; the one embedded here is the
fuller variant (src/unnamed/part_000 lines 13 to 65) that substitutes
the declared path parameters and encodes the declared query parameters;
`fhandler.go` lines 13 to 52 hold an older variant that loops over all
arguments for path substitution and never touches the query.  The HTTP
round trip and the JSON response decoder are external effects, passed as
oracle parameters. -/

/-- Errors the executor can return. -/
inductive ExecError : Type where
  | urlParseError
  | newRequestError
  | transportError (msg : String)
  | decodeError (msg : String)
deriving DecidableEq

/-- The observable content of the `http.Request` the executor builds:
method, parsed URL, whether a body is attached, and the Content-Type
header if set.  `http.NewRequest` parses the URL string and, for a
zero-length `bytes.Reader`, attaches no body. -/
structure BuiltRequest where
  method : String
  url : GoURL
  urlString : String
  hasBody : Bool
  contentType : Option String
deriving DecidableEq

/-- The path-parameter substitution step (src/unnamed/part_000 line 18):
replace every occurrence of the brace-wrapped name by the path-escaped
printed argument value. -/
def substPathParam (args : Args) (u : String) (pp : String) : String :=
  goReplaceAllS u ("\x7b" ++ pp ++ "\x7d") (pathEscape (fmtSprint (argsGet args pp)))

/-- The query-parameter step (src/unnamed/part_000 lines 27 to 29): set
every declared query key to the printed argument value. -/
def setQueryParam (args : Args) (q : Values) (qp : String) : Values :=
  valuesSet q qp (fmtSprint (argsGet args qp))

/-- Embedding of the request-building part of `executeAPIRequest`
(src/unnamed/part_000 lines 14 to 51): join the base URL with the path
template, substitute path parameters textually in the URL string, re-parse
and re-encode the URL when query parameters are declared, marshal the
body when one is given, and build the request, setting Content-Type
exactly when a body is present. -/
def buildRequest (baseURL : GoURL) (fn : FunctionDefinition)
    (requestBody : Value) (args : Args) : Except ExecError BuiltRequest :=
  let u := (baseURL.joinPath1 fn.oapiPath).toString
  let u := fn.pathParams.foldl (substPathParam args) u
  match (if 0 < fn.queryParams.length then
      match goURLParse u with
      | Option.none => Except.error ExecError.urlParseError
      | Option.some uu =>
        let uq := fn.queryParams.foldl (setQueryParam args) (parseQueryValues uu.rawQuery)
        Except.ok (GoURL.toString { uu with rawQuery := valuesEncode uq })
    else (Except.ok u : Except ExecError String)) with
  | Except.error e => Except.error e
  | Except.ok u =>
    let body :=
      if requestBody = Value.null then (Option.none : Option String)
      else Option.some (jsonMarshalValue requestBody)
    match goURLParse u with
    | Option.none => Except.error ExecError.newRequestError
    | Option.some ru =>
      Except.ok
        { method := fn.oapiMethod
          url := ru
          urlString := u
          hasBody := body.isSome
          contentType :=
            if body.isSome then Option.some "application/json" else Option.none }

/-- The observable content of an `http.Response`. -/
structure GoResponse where
  statusCode : Nat
  body : String

/-- Embedding of the response-handling tail of `executeAPIRequest`
(src/unnamed/part_000 lines 57 to 64).  The deferred `resp.Body.Close()`
is recorded by the boolean, true exactly on the exit paths where the
defer runs, that is on all of them; the status code field is never
read. -/
def handleResponse (dec : String → Except String Value) (resp : GoResponse) :
    Except ExecError Value × Bool :=
  match dec resp.body with
  | Except.ok v => (Except.ok v, true)
  | Except.error e => (Except.error (ExecError.decodeError e), true)

/-- Embedding of `executeAPIRequest` (src/unnamed/part_000 lines 13 to
65), with the HTTP client `Do` call and the JSON decoder as oracle
parameters.  The boolean records whether a received response body was
closed; on the paths where no response was received there is no body. -/
def executeAPIRequest (doReq : BuiltRequest → Except String GoResponse)
    (dec : String → Except String Value) (baseURL : GoURL)
    (fn : FunctionDefinition) (requestBody : Value) (args : Args) :
    Except ExecError Value × Bool :=
  match buildRequest baseURL fn requestBody args with
  | Except.error e => (Except.error e, false)
  | Except.ok req =>
    match doReq req with
    | Except.error e => (Except.error (ExecError.transportError e), false)
    | Except.ok resp => handleResponse dec resp

/-- Embedding of `ExecuteFunction` (src/unnamed/part_000 lines 68 to
72): the request body is the `requestBody` argument entry, the nil
interface when absent. -/
def ExecuteFunction (doReq : BuiltRequest → Except String GoResponse)
    (dec : String → Except String Value) (baseURL : GoURL)
    (fn : FunctionDefinition) (arguments : Args) :
    Except ExecError Value × Bool :=
  executeAPIRequest doReq dec baseURL fn (argsGet arguments "requestBody") arguments

/-! ## Authenticated transport (client.go) -/

/-- The `AuthType` constants (client.go lines 15 to 23). -/
def authTypeNone : String := "none"

/-- Basic authentication type tag. -/
def authTypeBasic : String := "basic"

/-- Header API-key authentication type tag. -/
def authTypeAPIKeyHeader : String := "apikey-header"

/-- Cookie API-key authentication type tag. -/
def authTypeAPIKeyCookie : String := "apikey-cookie"

/-- Bearer authentication type tag. -/
def authTypeBearer : String := "bearer"

/-- OAuth2 authentication type tag. -/
def authTypeOAuth2 : String := "oauth2"

/-- Cookie-list authentication type tag. -/
def authTypeCookie : String := "cookie"

/-- The fragment of `oauth2.Token` the transport reads. -/
structure OAuthToken where
  accessToken : String
  tokenType : String
deriving DecidableEq

/-- Model of `oauth2.Token.Type` on the configurations in scope: an
empty token type means Bearer (the Go canonicalization of the named
types is not exercised by any claim). -/
def tokenTypeName (t : OAuthToken) : String :=
  if t.tokenType = "" then "Bearer" else t.tokenType

/-- Embedding of `type AuthConfig struct` (client.go lines 26 to 45).
A token source is an external effect; it is modelled by the result its
`Token()` call returns. -/
structure AuthConfig where
  type : String
  username : String
  password : String
  apiKeyName : String
  apiKeyValue : String
  token : String
  tokenSource : Option (Except String OAuthToken)
  cookies : List (String × String)

/-- The observable content of the outgoing `http.Request` at the
transport layer: headers and attached cookies. -/
structure GoRequest where
  headers : List (String × String)
  cookies : List (String × String)
deriving DecidableEq

/-- Go `http.Header.Set` modelled on an association list.  (Go
canonicalizes MIME header keys; every key the transport sets is already
canonical.) -/
def headerSet : List (String × String) → String → String → List (String × String)
  | [], k, v => [(k, v)]
  | (n, w) :: t, k, v =>
    if n = k then (n, v) :: t else (n, w) :: headerSet t k v

/-- Go `http.Request.AddCookie` modelled as appending the pair. -/
def addCookie (req : GoRequest) (c : String × String) : GoRequest :=
  { req with cookies := req.cookies ++ [c] }

/-- Base64 alphabet character. -/
def b64char (n : Nat) : Char :=
  ("ABCDEFGHIJKLMNOPQRSTUVWXYZabcdefghijklmnopqrstuvwxyz0123456789+/".data).getD n 'A'

/-- Standard base64 of a byte list, three bytes at a time. -/
def base64Chunks : List Nat → List Char
  | [] => []
  | [a] => [b64char (a / 4), b64char ((a % 4) * 16), '=', '=']
  | [a, b] => [b64char (a / 4), b64char ((a % 4) * 16 + b / 16), b64char ((b % 16) * 4), '=']
  | a :: b :: c :: rest =>
    [b64char (a / 4), b64char ((a % 4) * 16 + b / 16),
     b64char ((b % 16) * 4 + c / 64), b64char (c % 64)] ++ base64Chunks rest

/-- Standard base64 encoding of an ASCII string, as
`http.Request.SetBasicAuth` uses. -/
def base64Encode (s : String) : String :=
  String.mk (base64Chunks (s.data.map Char.toNat))

/-- Model of `oauth2.Token.SetAuthHeader`: set the Authorization header
from the token type and access token. -/
def setAuthHeader (t : OAuthToken) (req : GoRequest) : GoRequest :=
  { req with headers := headerSet req.headers "Authorization" (tokenTypeName t ++ " " ++ t.accessToken) }

/-- Embedding of `AuthRoundTripper.RoundTrip` (client.go lines 54 to
109).  The underlying transport is the observer: a returned `ok r` means
the request `r` was handed to it; an `error` means the request was never
sent.  Go clones the request before mutating it, which value semantics
give for free. -/
def roundTrip (config : Option AuthConfig) (req : GoRequest) : Except String GoRequest :=
  match config with
  | Option.none => Except.ok req
  | Option.some cfg =>
    if cfg.type = authTypeNone then Except.ok req
    else if cfg.type = authTypeBasic then
      let basic := "Basic " ++ base64Encode (cfg.username ++ ":" ++ cfg.password)
      Except.ok { req with headers := headerSet req.headers "Authorization" basic }
    else if cfg.type = authTypeAPIKeyHeader then
      Except.ok (if cfg.apiKeyName ≠ "" ∧ cfg.apiKeyValue ≠ "" then
        { req with headers := headerSet req.headers cfg.apiKeyName cfg.apiKeyValue }
      else req)
    else if cfg.type = authTypeAPIKeyCookie then
      Except.ok (if cfg.apiKeyName ≠ "" ∧ cfg.apiKeyValue ≠ "" then
        addCookie req (cfg.apiKeyName, cfg.apiKeyValue)
      else req)
    else if cfg.type = authTypeBearer then
      Except.ok (if cfg.token ≠ "" then
        { req with headers := headerSet req.headers "Authorization" ("Bearer " ++ cfg.token) }
      else req)
    else if cfg.type = authTypeOAuth2 then
      match cfg.tokenSource with
      | Option.some ts =>
        match ts with
        | Except.ok token => Except.ok (setAuthHeader token req)
        | Except.error e => Except.error ("failed to get OAuth2 token: " ++ e)
      | Option.none =>
        if cfg.token ≠ "" then Except.ok (setAuthHeader ⟨cfg.token, ""⟩ req)
        else Except.error "OAuth2 requires either Token or TokenSource"
    else if cfg.type = authTypeCookie then
      Except.ok (cfg.cookies.foldl addCookie req)
    else Except.error ("unsupported auth type: " ++ cfg.type)

/-- A Go runtime panic observable from the embedded constructors. -/
inductive GoPanic : Type where
  | nilPointerDereference
deriving DecidableEq

/-- The observable result of `NewHTTPClient`: the configuration wired
into the round tripper and whether a cookie jar was attached. -/
structure HTTPClientModel where
  config : Option AuthConfig
  hasCookieJar : Bool

/-- Embedding of `NewHTTPClient` (client.go lines 159 to 187).  Its
first read of `config.Type` (line 167) dereferences the pointer with no
preceding nil check, so a nil configuration panics, modelled by the
error case; the optional client tweaks do not affect the modelled
fields. -/
def NewHTTPClient (config : Option AuthConfig) : Except GoPanic HTTPClientModel :=
  match config with
  | Option.none => Except.error GoPanic.nilPointerDereference
  | Option.some cfg =>
    Except.ok
      { config := Option.some cfg
        hasCookieJar := cfg.type = authTypeAPIKeyCookie ∨ cfg.type = authTypeCookie }

/-- Failure modes of `NewAPIClient`: a URL parse error returned as a
value, or the panic propagated out of `NewHTTPClient`. -/
inductive NewClientError : Type where
  | urlError
  | panicked (p : GoPanic)
deriving DecidableEq

/-- The observable content of an `APIClient`. -/
structure APIClientModel where
  baseURL : GoURL
  httpClient : HTTPClientModel

/-- Embedding of `NewAPIClient` (apiai.go lines 19 to 29): parse the
base URL, then build the HTTP client. -/
def NewAPIClient (baseURL : String) (authConfig : Option AuthConfig) :
    Except NewClientError APIClientModel :=
  match goURLParse baseURL with
  | Option.none => Except.error NewClientError.urlError
  | Option.some u =>
    match NewHTTPClient authConfig with
    | Except.error p => Except.error (NewClientError.panicked p)
    | Except.ok cli => Except.ok { baseURL := u, httpClient := cli }

/-! ## Spec loader (apiai.go lines 255 to 288)

The JSON and YAML decoders are the external packages `encoding/json`
and `yaml.v3`; they enter the model as oracle parameters, and the
embedded function contributes exactly the fallback control flow of
`UnmarshalOpenAPISpec`. -/

/-- Embedding of `UnmarshalOpenAPISpec` (apiai.go lines 276 to 288):
try the JSON decoder; on its failure try the YAML decoder; when both
fail return the YAML error, the JSON error being discarded. -/
def UnmarshalOpenAPISpec (jsonDec yamlDec : String → Except String OpenAPISpec)
    (data : String) : Except String OpenAPISpec :=
  match jsonDec data with
  | Except.ok spec => Except.ok spec
  | Except.error _ =>
    match yamlDec data with
    | Except.ok spec => Except.ok spec
    | Except.error e => Except.error e

/-! ## Fixtures and helper lemmas -/

/-- The query parameter `limit` of the round-trip document, required,
with an integer schema; its descriptions and format are arbitrary. -/
def petsLimitParam (pdescr pformat sdescr : String) : Parameter :=
  { name := "limit", in_ := "query", description := pdescr, required := true
    schema := .some (.mk "integer" .none [] pformat sdescr), ref := "" }

/-- A document whose only operation is GET `/pets` with the single
required integer query parameter `limit`; every metadata string is
arbitrary. -/
def petsDoc (oapi ti td tv summary odescr pdescr pformat sdescr : String) : OpenAPISpec :=
  { openapi := oapi
    paths := [("/pets",
      { get := Option.some
          { summary := summary, description := odescr
            parameters := [petsLimitParam pdescr pformat sdescr]
            requestBody := Option.none }
        post := Option.none, put := Option.none
        delete := Option.none, patch := Option.none })]
    info := ⟨ti, td, tv⟩
    components := Option.none }

/-- Reading back the key just set in a properties map. -/
theorem propGet_propSet : ∀ (ps : PropList) (k : String) (v : SchemaOpt),
    propGet (propSet ps k v) k = Option.some v
  | .nil, k, v => by simp [propSet, propGet]
  | .cons n s t, k, v => by
    by_cases h : n = k <;> simp [propSet, propGet, h, propGet_propSet t k v]

/-- An empty document. -/
def emptySpec : OpenAPISpec := ⟨"", [], ⟨"", "", ""⟩, Option.none⟩

/-- An empty parameter-loop accumulator. -/
def emptyAcc : ParamAcc := ⟨.nil, [], [], []⟩

/-- A query parameter with no schema. -/
def qParam : Parameter := ⟨"q", "query", "the q parameter", false, .none, ""⟩

/-- A reusable component parameter, as in the repository's test file. -/
def offsetParam : Parameter :=
  ⟨"offset", "query", "items to skip", false, .some (.mk "integer" .none [] "" ""), ""⟩

/-- A parameter stub holding only a reference to `offsetParam`. -/
def refStub : Parameter := ⟨"", "", "", false, .none, "#/components/parameters/offsetParam"⟩

/-- A plain parameter with no reference. -/
def directParam : Parameter := ⟨"directParam", "query", "", false, .none, ""⟩

/-- A document whose components table holds `offsetParam`. -/
def specWithComponents : OpenAPISpec :=
  ⟨"3.0.0", [], ⟨"", "", ""⟩, Option.some ⟨Option.some [("offsetParam", offsetParam)]⟩⟩

/-- The base URL `http://example.com` of the executor scenarios. -/
def exBase : GoURL := ⟨"http", "example.com", "", "", ""⟩

/-- The function of the executor scenario: GET on the `/items/:id`
template with path parameter `id` and query parameter `verbose`. -/
def itemsFn : FunctionDefinition :=
  { name := "get_items_id", description := ""
    parameters := .mk "object" (.some .nil) [] "" ""
    oapiMethod := "GET", oapiPath := "/items/\x7bid\x7d"
    pathParams := ["id"], queryParams := ["verbose"] }

/-! ## Claims -/

/-- Claim C3: function-name generation is a pure function of method and
path, replacing slashes by underscores, stripping braces, prefixing the
method and lower-casing; on GET `/pets/:id` it yields `get_pets_id` and
on POST `/pets` it yields `post_pets`. -/
theorem sanitizeFunctionName_examples :
    sanitizeFunctionName "/pets/\x7bid\x7d" "GET" = "get_pets_id" ∧
    sanitizeFunctionName "/pets" "POST" = "post_pets" :=
  ⟨rfl, rfl⟩

/-- Claim C1: converting any document whose sole operation is GET
`/pets` with one required integer query parameter `limit` yields exactly
one function definition, keyed and named `get_pets`, whose parameter
schema is an object with a `limit` property of type `integer` and
required list `["limit"]`, and whose query-parameter list is `["limit"]`
while its path-parameter list is empty. -/
theorem ConvertOpenAPIToFunctions_pets_roundtrip
    (oapi ti td tv summary odescr pdescr pformat sdescr : String) :
    ConvertOpenAPIToFunctions (petsDoc oapi ti td tv summary odescr pdescr pformat sdescr) =
      [("get_pets",
        { name := "get_pets"
          description := descCompose summary odescr
          parameters := .mk "object"
            (.some (.cons "limit" (.some (.mk "integer" .none [] "" pdescr)) .nil))
            ["limit"] "" ""
          oapiMethod := "GET"
          oapiPath := "/pets"
          pathParams := []
          queryParams := ["limit"] })] :=
  rfl

/-- Claim C9: a path or query parameter whose schema pointer is nil
after reference resolution still contributes a property, typed `string`
by default and carrying the parameter's description. -/
theorem processParam_missing_schema_default
    (spec : OpenAPISpec) (acc : ParamAcc) (param : Parameter)
    (hin : (resolveParameterRef param spec).in_ = "path" ∨
           (resolveParameterRef param spec).in_ = "query")
    (hschema : (resolveParameterRef param spec).schema = .none) :
    propGet (processParam spec acc param).properties (resolveParameterRef param spec).name =
      Option.some (.some (.mk "string" .none [] "" (resolveParameterRef param spec).description)) := by
  unfold processParam
  rw [if_pos hin, hschema]
  simp [convertSchemaToProperty, SchemaN.withDescription, propGet_propSet]

/-- Witness for claim C9 at a concrete schemaless query parameter. -/
theorem processParam_missing_schema_default_witness :
    propGet (processParam emptySpec emptyAcc qParam).properties "q" =
      Option.some (.some (.mk "string" .none [] "" "the q parameter")) :=
  processParam_missing_schema_default emptySpec emptyAcc qParam (Or.inr rfl) rfl

/-- Claim C4: resolution replaces a parameter by the component table's
entry exactly when its reference splits into the four segments
`#`, `components`, `parameters`, key and the key is in the table; in
every other case — no reference, wrong shape, missing table or absent
key — it returns the original parameter unchanged, and it never
errors. -/
theorem resolveParameterRef_cases (param : Parameter) (spec : OpenAPISpec) :
    (∀ k p tbl,
        goSplitSlashS param.ref = ["#", "components", "parameters", k] →
        spec.components.bind Components.parameters = Option.some tbl →
        lookupParam tbl k = Option.some p →
        resolveParameterRef param spec = p) ∧
    ((¬ ∃ k p tbl,
        goSplitSlashS param.ref = ["#", "components", "parameters", k] ∧
        spec.components.bind Components.parameters = Option.some tbl ∧
        lookupParam tbl k = Option.some p) →
      resolveParameterRef param spec = param) := by
  obtain ⟨oapi, paths, info, comps⟩ := spec
  constructor
  · intro k p tbl hsplit hbind hlook
    have href : ¬ param.ref = "" := by
      intro h
      rw [h] at hsplit
      have hlen := congrArg List.length hsplit
      simp [goSplitSlashS, goSplitSlash, goSplitChar] at hlen
    cases comps with
    | none => simp [Option.bind] at hbind
    | some c =>
      obtain ⟨cparams⟩ := c
      cases cparams with
      | none => simp [Option.bind] at hbind
      | some tbl2 =>
        have htbl : tbl2 = tbl := by simpa [Option.bind] using hbind
        subst htbl
        simp only [resolveParameterRef, if_neg href]
        rw [hsplit]
        simp [hlook]
  · intro hno
    by_cases href : param.ref = ""
    · simp [resolveParameterRef, href]
    · simp only [resolveParameterRef, if_neg href]
      cases comps with
      | none => rfl
      | some c =>
        obtain ⟨cparams⟩ := c
        cases cparams with
        | none => rfl
        | some tbl =>
          show (match goSplitSlashS param.ref with
                | [a, b, c, k] =>
                  if a = "#" ∧ b = "components" ∧ c = "parameters" then
                    match lookupParam tbl k with
                    | Option.some referencedParam => referencedParam
                    | Option.none => param
                  else param
                | _ => param) = param
          split
          · rename_i a b c k h4
            by_cases habc : a = "#" ∧ b = "components" ∧ c = "parameters"
            · obtain ⟨ha, hb, hc2⟩ := habc
              subst ha
              subst hb
              subst hc2
              rw [if_pos ⟨rfl, rfl, rfl⟩]
              cases hlook : lookupParam tbl k with
              | none => rfl
              | some p => exact absurd ⟨k, p, tbl, h4, rfl, hlook⟩ hno
            · rw [if_neg habc]
          · rfl

/-- Witness for claim C4: a reference stub resolves to the component
entry, and a parameter with no reference comes back unchanged. -/
theorem resolveParameterRef_cases_witness :
    resolveParameterRef refStub specWithComponents = offsetParam ∧
    resolveParameterRef directParam specWithComponents = directParam := by
  constructor
  · exact (resolveParameterRef_cases refStub specWithComponents).1
      "offsetParam" offsetParam [("offsetParam", offsetParam)] rfl rfl rfl
  · refine (resolveParameterRef_cases directParam specWithComponents).2 ?_
    rintro ⟨k, p, tbl, hsplit, -, -⟩
    have h0 : goSplitSlashS directParam.ref = [""] := rfl
    rw [h0] at hsplit
    have hlen := congrArg List.length hsplit
    simp at hlen

/-- Claim C2 (the path half fails on the code): at the claim's exact
scenario — GET `/items/:id`, arguments id 7 and verbose true — the
built request carries query string `verbose=true`, no body and no
Content-Type header, but its URL path is still the literal `/items/:id`
template (with percent-encoded braces on the wire), not `/items/7`:
`URL.String()` percent-encodes the braces before the textual
substitution searches for them.  The final conjunct records that the
path does not end in `/items/7`. -/
theorem executeAPIRequest_items_bug :
    buildRequest exBase itemsFn Value.null [("id", Value.str "7"), ("verbose", Value.str "true")] =
      Except.ok
        { method := "GET"
          url := ⟨"http", "example.com", "/items/\x7bid\x7d", "", "verbose=true"⟩
          urlString := "http://example.com/items/%7Bid%7D?verbose=true"
          hasBody := false
          contentType := Option.none } ∧
    List.isSuffixOf "/items/7".data "/items/\x7bid\x7d".data = false :=
  ⟨rfl, by decide⟩

/-- Claim C5 (the path half fails on the code): with both arguments
missing, the executor performs no missing-argument check (it still
returns a built request), the map read yields the nil interface whose
printed form drives both steps, and the query key is set to that zero
value string; but the path placeholder, percent-encoded in the URL, is
not substituted at all, so the zero-value text never reaches the
path. -/
theorem executeAPIRequest_missing_args_zero_value :
    argsGet [] "id" = Value.null ∧
    pathEscape (fmtSprint Value.null) = "%3Cnil%3E" ∧
    substPathParam [] "http://example.com/items/%7Bid%7D" "id" =
      "http://example.com/items/%7Bid%7D" ∧
    buildRequest exBase itemsFn Value.null [] =
      Except.ok
        { method := "GET"
          url := ⟨"http", "example.com", "/items/\x7bid\x7d", "", "verbose=%3Cnil%3E"⟩
          urlString := "http://example.com/items/%7Bid%7D?verbose=%3Cnil%3E"
          hasBody := false
          contentType := Option.none } :=
  ⟨rfl, rfl, rfl, rfl⟩

/-- A trivial document returned by the example JSON decoder. -/
def trivialSpecA : OpenAPISpec := ⟨"3.0.0", [], ⟨"", "", ""⟩, Option.none⟩

/-- A trivial document returned by the example YAML decoder. -/
def trivialSpecB : OpenAPISpec := ⟨"3.1.0", [], ⟨"", "", ""⟩, Option.none⟩

/-- An example JSON decoder: succeeds only on the input `j`. -/
def jsonDecEx : String → Except String OpenAPISpec :=
  fun d => if d = "j" then Except.ok trivialSpecA else Except.error "json syntax error"

/-- An example YAML decoder: fails only on the input `z`; in particular
it also succeeds on `j`, where the JSON result must win. -/
def yamlDecEx : String → Except String OpenAPISpec :=
  fun d => if d = "z" then Except.error "yaml syntax error" else Except.ok trivialSpecB

/-- Claim C6: the auto-detecting loader returns the JSON decoder's
result whenever JSON decoding succeeds (whatever the YAML decoder would
say), falls back to the YAML result when JSON fails, and when both fail
returns the YAML error, discarding the JSON one. -/
theorem unmarshalOpenAPISpec_auto_detect
    (jsonDec yamlDec : String → Except String OpenAPISpec) (data : String) :
    (∀ s, jsonDec data = Except.ok s →
        UnmarshalOpenAPISpec jsonDec yamlDec data = Except.ok s) ∧
    (∀ e s, jsonDec data = Except.error e → yamlDec data = Except.ok s →
        UnmarshalOpenAPISpec jsonDec yamlDec data = Except.ok s) ∧
    (∀ ej ey, jsonDec data = Except.error ej → yamlDec data = Except.error ey →
        UnmarshalOpenAPISpec jsonDec yamlDec data = Except.error ey) := by
  refine ⟨fun s h => ?_, fun e s hj hy => ?_, fun ej ey hj hy => ?_⟩
  · simp [UnmarshalOpenAPISpec, h]
  · simp [UnmarshalOpenAPISpec, hj, hy]
  · simp [UnmarshalOpenAPISpec, hj, hy]

/-- Witness for claim C6 at the example decoders: a JSON success wins
even though YAML would also succeed there; a JSON failure falls back to
YAML; a double failure surfaces the YAML error. -/
theorem unmarshalOpenAPISpec_auto_detect_witness :
    UnmarshalOpenAPISpec jsonDecEx yamlDecEx "j" = Except.ok trivialSpecA ∧
    UnmarshalOpenAPISpec jsonDecEx yamlDecEx "y" = Except.ok trivialSpecB ∧
    UnmarshalOpenAPISpec jsonDecEx yamlDecEx "z" = Except.error "yaml syntax error" :=
  ⟨(unmarshalOpenAPISpec_auto_detect jsonDecEx yamlDecEx "j").1 trivialSpecA rfl,
   (unmarshalOpenAPISpec_auto_detect jsonDecEx yamlDecEx "y").2.1
     "json syntax error" trivialSpecB rfl rfl,
   (unmarshalOpenAPISpec_auto_detect jsonDecEx yamlDecEx "z").2.2
     "json syntax error" "yaml syntax error" rfl rfl⟩

/-- Claim C7: whenever a response is received its body is closed on the
exit path taken, whether decoding succeeds or fails; the handling never
reads the status code, so the result at any status equals the result at
any other and a non-2xx response is not by itself an error; and the
executor's success path is exactly this handler. -/
theorem handleResponse_close_and_status
    (dec : String → Except String Value) (status status2 : Nat) (body : String) :
    handleResponse dec ⟨status, body⟩ = handleResponse dec ⟨status2, body⟩ ∧
    (handleResponse dec ⟨status, body⟩).2 = true ∧
    (∀ v, dec body = Except.ok v →
        (handleResponse dec ⟨status, body⟩).1 = Except.ok v) ∧
    (∀ e, dec body = Except.error e →
        (handleResponse dec ⟨status, body⟩).1 = Except.error (ExecError.decodeError e)) ∧
    (∀ (doReq : BuiltRequest → Except String GoResponse) (baseURL : GoURL)
        (fn : FunctionDefinition) (requestBody : Value) (args : Args)
        (req : BuiltRequest) (resp : GoResponse),
      buildRequest baseURL fn requestBody args = Except.ok req →
      doReq req = Except.ok resp →
      executeAPIRequest doReq dec baseURL fn requestBody args = handleResponse dec resp) := by
  refine ⟨rfl, ?_, fun v hv => ?_, fun e he => ?_,
    fun doReq baseURL fn requestBody args req resp hb hd => ?_⟩
  · cases h : dec body <;> simp [handleResponse, h]
  · simp [handleResponse, hv]
  · simp [handleResponse, he]
  · simp [executeAPIRequest, hb, hd]

/-- An example JSON response decoder: succeeds only on the body `1`. -/
def decEx : String → Except String Value :=
  fun b => if b = "1" then Except.ok (Value.int 1) else Except.error "invalid json"

/-- An example transport always answering status 200 with body `1`. -/
def doReqEx : BuiltRequest → Except String GoResponse :=
  fun _ => Except.ok ⟨200, "1"⟩

/-- A parameterless GET function on `/pets`. -/
def plainFn : FunctionDefinition :=
  ⟨"get_pets", "", .mk "object" (.some .nil) [] "" "", "GET", "/pets", [], []⟩

/-- Witness for claim C7 at concrete decoders, statuses and bodies. -/
theorem handleResponse_close_and_status_witness :
    handleResponse decEx ⟨500, "1"⟩ = handleResponse decEx ⟨200, "1"⟩ ∧
    (handleResponse decEx ⟨404, "oops"⟩).2 = true ∧
    (handleResponse decEx ⟨500, "1"⟩).1 = Except.ok (Value.int 1) ∧
    (handleResponse decEx ⟨200, "oops"⟩).1 = Except.error (ExecError.decodeError "invalid json") ∧
    executeAPIRequest doReqEx decEx exBase plainFn Value.null [] = handleResponse decEx ⟨200, "1"⟩ :=
  ⟨(handleResponse_close_and_status decEx 500 200 "1").1,
   (handleResponse_close_and_status decEx 404 0 "oops").2.1,
   (handleResponse_close_and_status decEx 500 0 "1").2.2.1 (Value.int 1) rfl,
   (handleResponse_close_and_status decEx 200 0 "oops").2.2.2.1 "invalid json" rfl,
   (handleResponse_close_and_status decEx 200 0 "1").2.2.2.2 doReqEx exBase plainFn
     Value.null []
     ⟨"GET", ⟨"http", "example.com", "/pets", "", ""⟩, "http://example.com/pets",
       false, Option.none⟩
     ⟨200, "1"⟩ rfl rfl⟩

/-- Claim C8: with the OAuth2 auth type, a configured token source is
consulted (its result used on success, its failure returned as the
wrapped error); with no token source a non-empty static token is used;
and with neither the request fails with the explicit OAuth2 error
instead of being sent. -/
theorem roundTrip_oauth2_cases (cfg : AuthConfig) (req : GoRequest)
    (htype : cfg.type = authTypeOAuth2) :
    (∀ t, cfg.tokenSource = Option.some (Except.ok t) →
        roundTrip (Option.some cfg) req = Except.ok (setAuthHeader t req)) ∧
    (∀ e, cfg.tokenSource = Option.some (Except.error e) →
        roundTrip (Option.some cfg) req = Except.error ("failed to get OAuth2 token: " ++ e)) ∧
    (cfg.tokenSource = Option.none → ¬ cfg.token = "" →
        roundTrip (Option.some cfg) req = Except.ok (setAuthHeader ⟨cfg.token, ""⟩ req)) ∧
    (cfg.tokenSource = Option.none → cfg.token = "" →
        roundTrip (Option.some cfg) req = Except.error "OAuth2 requires either Token or TokenSource") := by
  simp only [roundTrip]
  rw [if_neg (show ¬ cfg.type = authTypeNone by rw [htype]; decide),
      if_neg (show ¬ cfg.type = authTypeBasic by rw [htype]; decide),
      if_neg (show ¬ cfg.type = authTypeAPIKeyHeader by rw [htype]; decide),
      if_neg (show ¬ cfg.type = authTypeAPIKeyCookie by rw [htype]; decide),
      if_neg (show ¬ cfg.type = authTypeBearer by rw [htype]; decide),
      if_pos htype]
  refine ⟨fun t ht => ?_, fun e he => ?_, fun hn ht => ?_, fun hn ht => ?_⟩
  · rw [ht]
  · rw [he]
  · rw [hn, if_pos ht]
  · rw [hn, if_neg (not_not_intro ht)]

/-- The empty outgoing request. -/
def emptyReq : GoRequest := ⟨[], []⟩

/-- An OAuth2 configuration with the given token source and static
token. -/
def oauthCfg (ts : Option (Except String OAuthToken)) (tok : String) : AuthConfig :=
  ⟨"oauth2", "", "", "", "", tok, ts, []⟩

/-- Witness for claim C8 at the four concrete OAuth2 configurations. -/
theorem roundTrip_oauth2_cases_witness :
    roundTrip (Option.some (oauthCfg (Option.some (Except.ok ⟨"abc", ""⟩)) "ignored")) emptyReq =
      Except.ok ⟨[("Authorization", "Bearer abc")], []⟩ ∧
    roundTrip (Option.some (oauthCfg (Option.some (Except.error "boom")) "")) emptyReq =
      Except.error "failed to get OAuth2 token: boom" ∧
    roundTrip (Option.some (oauthCfg Option.none "stat")) emptyReq =
      Except.ok ⟨[("Authorization", "Bearer stat")], []⟩ ∧
    roundTrip (Option.some (oauthCfg Option.none "")) emptyReq =
      Except.error "OAuth2 requires either Token or TokenSource" :=
  ⟨(roundTrip_oauth2_cases (oauthCfg (Option.some (Except.ok ⟨"abc", ""⟩)) "ignored")
      emptyReq rfl).1 ⟨"abc", ""⟩ rfl,
   (roundTrip_oauth2_cases (oauthCfg (Option.some (Except.error "boom")) "")
      emptyReq rfl).2.1 "boom" rfl,
   (roundTrip_oauth2_cases (oauthCfg Option.none "stat") emptyReq rfl).2.2.1 rfl (by decide),
   (roundTrip_oauth2_cases (oauthCfg Option.none "") emptyReq rfl).2.2.2 rfl rfl⟩

/-- Claim C10: building an HTTP client from a nil auth configuration
panics — the constructor reads the configuration's type field before
any nil guard — and therefore so does building an API client; yet the
round-trip path itself tolerates a nil configuration by passing the
request through untouched. -/
theorem NewHTTPClient_nil_config_panics :
    NewHTTPClient Option.none = Except.error GoPanic.nilPointerDereference ∧
    NewAPIClient "http://example.com" Option.none =
      Except.error (NewClientError.panicked GoPanic.nilPointerDereference) ∧
    ∀ req : GoRequest, roundTrip Option.none req = Except.ok req :=
  ⟨rfl, rfl, fun _ => rfl⟩

end Apiai
